import Mathlib

/-!
# Verification of the chat/query orchestration layer of the HR agent frontend

This file gives a shallow embedding of the conversational query layer of the
repository: the retrieval-mode chat hook (`useChat` building a RAG answer from
`/v1/rag/query` results), the agent-mode chat hook (`useChat` with
`ensureConversation` and tool-call passthrough), the message id generator
`nextId`, and the chat input's `handleSubmit` guard.  Asynchronous execution is
modelled as a small-step event semantics: each `sendMessage` call is a task
whose network requests are resolved by environment events, so arbitrary
interleavings of overlapping calls can be examined.
-/

set_option autoImplicit false

namespace HrAgent

/-! ## Message id generation (`nextId` in both chat hooks)

The source keeps a module-level counter and produces
`msg-${messageIdCounter}-${Date.now()}` after incrementing the counter.
`natDigits` embeds JavaScript number-to-string conversion for the natural
numbers that occur here (the counter and the clock value). -/

def digitChar : Nat → Char
  | 0 => '0'
  | 1 => '1'
  | 2 => '2'
  | 3 => '3'
  | 4 => '4'
  | 5 => '5'
  | 6 => '6'
  | 7 => '7'
  | 8 => '8'
  | _ => '9'

/-- Decimal digit list of a natural number, with a fuel argument to keep the
recursion structural (any fuel above the number itself yields the digits). -/
def natDigitsAux : Nat → Nat → List Char
  | _, 0 => []
  | n, fuel + 1 =>
      if n < 10 then [digitChar n]
      else natDigitsAux (n / 10) fuel ++ [digitChar (n % 10)]

def natDigits (n : Nat) : List Char := natDigitsAux n (n + 1)

def natRepr (n : Nat) : String := String.mk (natDigits n)

/-- Value of `nextId()` after the counter has been bumped to `c`, at clock
value `t`: the string `msg-${c}-${t}`. -/
def mkId (c t : Nat) : String := "msg-" ++ natRepr c ++ "-" ++ natRepr t

/-- JavaScript `String.prototype.trim()`: drop whitespace from both ends. -/
def jsTrim (s : String) : String :=
  ⟨((s.data.dropWhile Char.isWhitespace).reverse.dropWhile Char.isWhitespace).reverse⟩

/-! ## Shared message model -/

inductive Role where
  | user
  | assistant
deriving DecidableEq

/-- The fixed fallback answer appended by the `catch` branch of both hooks. -/
def fallbackContent : String :=
  "Sorry, I encountered an error processing your question. Please try again."

/-! ## Retrieval-mode hook (`useChat` posting to `/v1/rag/query`) -/

/-- One `{chunk_text, similarity}` result returned by the retriever.
JavaScript numbers are embedded as exact rationals. -/
structure RagChunk where
  chunk_text : String
  similarity : Rat
deriving DecidableEq

structure RagMessage where
  id : String
  role : Role
  content : String
  sources : Option (List RagChunk)
  timestamp : Nat
deriving DecidableEq

/-- ECMAScript `Number.prototype.toFixed(0)`: the integer closest to the
argument, ties resolved towards the larger integer, i.e. `⌊x + 1/2⌋`. -/
def jsToFixed0 (x : Rat) : Int := (x + 1 / 2).floor

/-- JavaScript string conversion of an integer. -/
def intRepr (n : Int) : String :=
  if n < 0 then "-" ++ natRepr n.natAbs else natRepr n.toNat

/-- The fixed no-results answer of the retrieval hook. -/
def noInfoContent : String :=
  "I couldn\x27t find any relevant information in the knowledge base. Please try rephrasing your question or contact HR directly."

/-- The constant preamble of the synthesized retrieval answer. -/
def ragPreamble : String :=
  "Based on the company policies, here\x27s what I found:\n\n"

/-- The answer string synthesized from the retriever's results: empty list
gives the fixed no-results answer; otherwise the preamble followed by one
block per result of `chunks.slice(0, 3)`, joined by blank lines, each block
being `**Source ${i + 1}** (${(c.similarity * 100).toFixed(0)}% match):\n${c.chunk_text}`. -/
def ragAnswer (chunks : List RagChunk) : String :=
  if chunks.length = 0 then
    noInfoContent
  else
    ragPreamble ++
      String.intercalate "\n\n"
        ((chunks.take 3).enum.map (fun p =>
          "**Source " ++ natRepr (p.1 + 1) ++ "** (" ++
            intRepr (jsToFixed0 (p.2.similarity * 100)) ++ "% match):\n" ++
            p.2.chunk_text))

/-- State of the retrieval-mode hook: the message list, the loading flag, the
module-level id counter, and a ghost count of `/v1/rag/query` requests issued
(used to observe that a call went out). -/
structure RagState where
  messages : List RagMessage
  isLoading : Bool
  counter : Nat
  ragCalls : Nat
deriving DecidableEq

def initRag : RagState := ⟨[], false, 0, 0⟩

/-- The synchronous segment of the retrieval hook's `sendMessage(question)`:
appends the user message, sets `isLoading`, and issues the POST to
`/v1/rag/query` (whose resolution is a later `ragComplete` event).  The source
has no guard: this happens for every call, whatever the question. -/
def ragStart (question : String) (t : Nat) (s : RagState) : RagState :=
  { s with
    messages := s.messages ++ [⟨mkId (s.counter + 1) t, .user, question, none, t⟩]
    isLoading := true
    counter := s.counter + 1
    ragCalls := s.ragCalls + 1 }

/-- Resolution of the retrieval call: on success the assistant message carries
the synthesized answer and `sources := chunks` (the full result list, also when
empty); on failure the `catch` branch appends the fixed fallback with no
`sources` field.  `finally` clears `isLoading` on both paths. -/
def ragComplete (r : Except Unit (List RagChunk)) (t : Nat) (s : RagState) : RagState :=
  match r with
  | .ok chunks =>
      { s with
        messages := s.messages ++
          [⟨mkId (s.counter + 1) t, .assistant, ragAnswer chunks, some chunks, t⟩]
        isLoading := false
        counter := s.counter + 1 }
  | .error _ =>
      { s with
        messages := s.messages ++
          [⟨mkId (s.counter + 1) t, .assistant, fallbackContent, none, t⟩]
        isLoading := false
        counter := s.counter + 1 }

/-- The retrieval hook's `clearMessages`: `setMessages([])`. -/
def ragClear (s : RagState) : RagState := { s with messages := [] }

/-! ## Agent-mode hook (`useChat` with `ensureConversation` and tool calls) -/

/-- A tool-invocation record passed through verbatim; arguments and result
values are carried as strings since the orchestrator never inspects them. -/
structure ToolCallInfo where
  tool : String
  arguments : List (String × String)
  result : String
deriving DecidableEq

structure AgentMessage where
  id : String
  role : Role
  content : String
  toolCalls : Option (List ToolCallInfo)
  timestamp : Nat
deriving DecidableEq

/-- An in-flight `sendMessage` task of the agent hook: either awaiting the
`/v1/chat/conversations` creation call issued by its `ensureConversation`, or
awaiting the `/v1/chat/message` query call with its resolved conversation id. -/
inductive ATask where
  | creating (content : String)
  | querying (cid : String) (content : String)
deriving DecidableEq

/-- State of the agent-mode hook: messages, loading flag, the
`conversationIdRef` cell, the in-flight tasks, the module-level id counter,
and ghost counts of creation and query requests issued. -/
structure AgentState where
  messages : List AgentMessage
  isLoading : Bool
  conversationId : Option String
  tasks : List ATask
  counter : Nat
  createCalls : Nat
  queryCalls : Nat
deriving DecidableEq

def initA : AgentState := ⟨[], false, none, [], 0, 0, 0⟩

/-- Events driving the agent hook: a `sendMessage` call (its synchronous
segment), resolution of task `i`'s creation or query request by the
environment, and a `clearMessages` call. -/
inductive AgentEvent where
  | send (content : String) (t : Nat)
  | createOk (i : Nat) (cid : String)
  | createErr (i : Nat) (t : Nat)
  | queryOk (i : Nat) (response : String) (tc : Option (List ToolCallInfo)) (t : Nat)
  | queryErr (i : Nat) (t : Nat)
  | clear
deriving DecidableEq

/-- Small-step semantics of the agent hook, from the source:
* `send`: append the user message, set `isLoading`, then `ensureConversation`:
  with a cached id the task proceeds straight to the query request; with none
  it issues its own creation request (the ref holds no in-flight promise, so
  every such call issues a fresh creation request).
* `createOk`: `conversationIdRef.current = data.id` and the task issues the
  query request with its own `data.id`.
* `createErr`/`queryErr`: the `catch` branch appends the fixed fallback
  message; `finally` clears `isLoading`.
* `queryOk`: append the assistant message with `content = data.response` and
  `toolCalls = data.tool_calls ?? undefined`; `finally` clears `isLoading`.
* `clear`: `setMessages([])` and `conversationIdRef.current = null`.
Resolution events whose task index does not hold a matching task are no-ops
(they correspond to no promise actually in flight). -/
def stepA (s : AgentState) (e : AgentEvent) : AgentState :=
  match e with
  | .send content t =>
      let s' : AgentState :=
        { s with
          messages := s.messages ++ [⟨mkId (s.counter + 1) t, .user, content, none, t⟩]
          isLoading := true
          counter := s.counter + 1 }
      match s.conversationId with
      | some cid =>
          { s' with tasks := s'.tasks ++ [.querying cid content]
                    queryCalls := s'.queryCalls + 1 }
      | none =>
          { s' with tasks := s'.tasks ++ [.creating content]
                    createCalls := s'.createCalls + 1 }
  | .createOk i cid =>
      match s.tasks[i]? with
      | some (.creating content) =>
          { s with
            conversationId := some cid
            tasks := s.tasks.set i (.querying cid content)
            queryCalls := s.queryCalls + 1 }
      | _ => s
  | .createErr i t =>
      match s.tasks[i]? with
      | some (.creating _) =>
          { s with
            messages := s.messages ++
              [⟨mkId (s.counter + 1) t, .assistant, fallbackContent, none, t⟩]
            isLoading := false
            counter := s.counter + 1
            tasks := s.tasks.eraseIdx i }
      | _ => s
  | .queryOk i response tc t =>
      match s.tasks[i]? with
      | some (.querying _ _) =>
          { s with
            messages := s.messages ++
              [⟨mkId (s.counter + 1) t, .assistant, response, tc, t⟩]
            isLoading := false
            counter := s.counter + 1
            tasks := s.tasks.eraseIdx i }
      | _ => s
  | .queryErr i t =>
      match s.tasks[i]? with
      | some (.querying _ _) =>
          { s with
            messages := s.messages ++
              [⟨mkId (s.counter + 1) t, .assistant, fallbackContent, none, t⟩]
            isLoading := false
            counter := s.counter + 1
            tasks := s.tasks.eraseIdx i }
      | _ => s
  | .clear =>
      { s with messages := [], conversationId := none }

def runA (s : AgentState) : List AgentEvent → AgentState
  | [] => s
  | e :: es => runA (stepA s e) es

/-! ## Chat input guard (`handleSubmit` in `ChatInput`) -/

/-- The chat input's `handleSubmit`: trims the draft `value`; if the trimmed
text is empty or the control is disabled it returns without sending; otherwise
it hands the trimmed text to `onSend` and clears the draft.  Returns the
message passed to `onSend` (if any) and the resulting draft value. -/
def handleSubmit (value : String) (disabled : Bool) : Option String × String :=
  let trimmed := jsTrim value
  if trimmed = "" ∨ disabled = true then (none, value)
  else (some trimmed, "")

/-! ## Ids generated along a run of the agent hook -/

/-- The ids produced by `nextId()` during one step (one per appended message). -/
def stepEmit (s : AgentState) (e : AgentEvent) : List String :=
  match e with
  | .send _ t => [mkId (s.counter + 1) t]
  | .createOk _ _ => []
  | .createErr i t =>
      match s.tasks[i]? with
      | some (.creating _) => [mkId (s.counter + 1) t]
      | _ => []
  | .queryOk i _ _ t =>
      match s.tasks[i]? with
      | some (.querying _ _) => [mkId (s.counter + 1) t]
      | _ => []
  | .queryErr i t =>
      match s.tasks[i]? with
      | some (.querying _ _) => [mkId (s.counter + 1) t]
      | _ => []
  | .clear => []

def runEmit (s : AgentState) : List AgentEvent → List String
  | [] => []
  | e :: es => stepEmit s e ++ runEmit (stepA s e) es

/-! ## Claim-side definitions and sample data -/

/-- Round half up, the rounding named by the specification for the percentage
display (`round(similarity*100)`); to be compared with the source's
`toFixed(0)`. -/
def roundHalfUp (x : Rat) : Int := ⌊x + 1 / 2⌋

/-- Agent-hook state with one task awaiting its session-creation request. -/
def sampleCreating : AgentState :=
  ⟨[], true, none, [.creating "What is the leave policy?"], 1, 1, 0⟩

/-- Agent-hook state with one task awaiting its query request. -/
def sampleQuerying : AgentState :=
  ⟨[], true, none, [.querying "conv-1" "What is the leave policy?"], 1, 1, 1⟩

/-- Agent-hook state with a resolved (cached) conversation id and no task. -/
def sampleResolved : AgentState := ⟨[], false, some "conv-1", [], 2, 1, 1⟩

/-- The retrieval result of the specification's scenario. -/
def sampleChunks : List RagChunk :=
  [⟨"Employees get 20 days annual leave.", 91 / 100⟩]

/-- A sample tool-call list returned by the agent backend. -/
def sampleToolCalls : List ToolCallInfo :=
  [⟨"get_leave_balance", [("employee_id", "e-1")], "12 days"⟩]

/-! ## Lemmas about the id generator -/

lemma digitChar_ne_dash (n : Nat) : digitChar n ≠ '-' := by
  unfold digitChar
  split <;> decide

lemma digitChar_inj {m n : Nat} (hm : m < 10) (hn : n < 10)
    (h : digitChar m = digitChar n) : m = n := by
  interval_cases m <;> interval_cases n <;> simp_all [digitChar]

lemma natDigitsAux_fuel : ∀ n f1 f2 : Nat, n < f1 → n < f2 →
    natDigitsAux n f1 = natDigitsAux n f2 := by
  intro n
  induction n using Nat.strong_induction_on with
  | _ n ih =>
    intro f1 f2 h1 h2
    match f1, f2 with
    | g1 + 1, g2 + 1 =>
      simp only [natDigitsAux]
      by_cases h : n < 10
      · simp [h]
      · have hlt : n / 10 < n := Nat.div_lt_self (by omega) (by omega)
        rw [if_neg h, if_neg h, ih (n / 10) hlt g1 g2 (by omega) (by omega)]

lemma natDigits_lt {n : Nat} (h : n < 10) : natDigits n = [digitChar n] := by
  simp [natDigits, natDigitsAux, h]

lemma natDigits_ge {n : Nat} (h : ¬n < 10) :
    natDigits n = natDigits (n / 10) ++ [digitChar (n % 10)] := by
  have hlt : n / 10 < n := Nat.div_lt_self (by omega) (by omega)
  show natDigitsAux n (n + 1) = natDigitsAux (n / 10) (n / 10 + 1) ++ _
  rw [natDigitsAux, if_neg h, natDigitsAux_fuel (n / 10) n (n / 10 + 1) hlt (by omega)]

lemma natDigits_ne_nil (n : Nat) : natDigits n ≠ [] := by
  by_cases h : n < 10
  · rw [natDigits_lt h]
    simp
  · rw [natDigits_ge h]
    simp

lemma natDigits_not_dash (n : Nat) : '-' ∉ natDigits n := by
  induction n using Nat.strong_induction_on with
  | _ n ih =>
    by_cases h : n < 10
    · rw [natDigits_lt h]
      simp [(digitChar_ne_dash n).symm]
    · rw [natDigits_ge h]
      have hlt : n / 10 < n := Nat.div_lt_self (by omega) (by omega)
      simp only [List.mem_append, List.mem_singleton]
      rintro (hc | hc)
      · exact ih (n / 10) hlt hc
      · exact digitChar_ne_dash (n % 10) hc.symm

lemma natDigits_inj : ∀ m n : Nat, natDigits m = natDigits n → m = n := by
  intro m
  induction m using Nat.strong_induction_on with
  | _ m ih =>
    intro n h
    by_cases hm : m < 10 <;> by_cases hn : n < 10
    · rw [natDigits_lt hm, natDigits_lt hn] at h
      exact digitChar_inj hm hn (by simpa using h)
    · rw [natDigits_lt hm, natDigits_ge hn] at h
      have := congrArg List.length h
      simp at this
      exact absurd this (natDigits_ne_nil (n / 10))
    · rw [natDigits_ge hm, natDigits_lt hn] at h
      have := congrArg List.length h
      simp at this
      exact absurd this (natDigits_ne_nil (m / 10))
    · rw [natDigits_ge hm, natDigits_ge hn] at h
      have hlen : (natDigits (m / 10)).length = (natDigits (n / 10)).length := by
        have := congrArg List.length h
        simp at this
        exact this
      obtain ⟨h1, h2⟩ := List.append_inj h hlen
      have hq : m / 10 = n / 10 :=
        ih (m / 10) (Nat.div_lt_self (by omega) (by omega)) (n / 10) h1
      have hr : m % 10 = n % 10 :=
        digitChar_inj (Nat.mod_lt _ (by omega)) (Nat.mod_lt _ (by omega))
          (by simpa using h2)
      omega

lemma splitDash : ∀ xs1 xs2 ys1 ys2 : List Char, '-' ∉ xs1 → '-' ∉ xs2 →
    xs1 ++ '-' :: ys1 = xs2 ++ '-' :: ys2 → xs1 = xs2 ∧ ys1 = ys2 := by
  intro xs1
  induction xs1 with
  | nil =>
    intro xs2 ys1 ys2 _ h2 h
    cases xs2 with
    | nil => simpa using h
    | cons b bs =>
      simp only [List.nil_append, List.cons_append, List.cons.injEq] at h
      simp only [List.mem_cons, not_or] at h2
      exact absurd h.1 h2.1
  | cons a as ihas =>
    intro xs2 ys1 ys2 h1 h2 h
    cases xs2 with
    | nil =>
      simp only [List.cons_append, List.nil_append, List.cons.injEq] at h
      simp only [List.mem_cons, not_or] at h1
      exact absurd h.1.symm h1.1
    | cons b bs =>
      simp only [List.cons_append, List.cons.injEq] at h
      obtain ⟨hab, hrest⟩ := h
      simp only [List.mem_cons, not_or] at h1 h2
      obtain ⟨hxs, hys⟩ := ihas bs ys1 ys2 h1.2 h2.2 hrest
      exact ⟨by rw [hab, hxs], hys⟩

lemma mkId_data (c t : Nat) :
    (mkId c t).data = 'm' :: 's' :: 'g' :: '-' :: (natDigits c ++ '-' :: natDigits t) := by
  show (("msg-" ++ natRepr c) ++ "-" ++ natRepr t).data = _
  simp only [String.data_append, natRepr]
  simp

lemma mkId_inj {c1 t1 c2 t2 : Nat} (h : mkId c1 t1 = mkId c2 t2) :
    c1 = c2 ∧ t1 = t2 := by
  have hd := congrArg String.data h
  rw [mkId_data, mkId_data] at hd
  simp only [List.cons.injEq, true_and] at hd
  obtain ⟨hc, ht⟩ := splitDash _ _ _ _ (natDigits_not_dash c1) (natDigits_not_dash c2) hd
  exact ⟨natDigits_inj _ _ hc, natDigits_inj _ _ ht⟩

/-- The claim's rounding and the source's `toFixed(0)` agree on every exact
rational input. -/
lemma roundHalfUp_eq_jsToFixed0 (x : Rat) : roundHalfUp x = jsToFixed0 x := by
  rw [roundHalfUp, jsToFixed0, Rat.floor_def, Rat.floor_def']

/-! ## Lemmas about the emitted ids -/

lemma counter_step (s : AgentState) (e : AgentEvent) :
    (stepA s e).counter = s.counter + (stepEmit s e).length := by
  cases e with
  | send content t =>
      simp only [stepA, stepEmit]
      cases s.conversationId <;> simp
  | createOk i cid =>
      simp only [stepA, stepEmit]
      match h : s.tasks[i]? with
      | some (.creating c) => simp [h]
      | some (.querying c q) => simp [h]
      | none => simp [h]
  | createErr i t =>
      simp only [stepA, stepEmit]
      match h : s.tasks[i]? with
      | some (.creating c) => simp [h]
      | some (.querying c q) => simp [h]
      | none => simp [h]
  | queryOk i r tc t =>
      simp only [stepA, stepEmit]
      match h : s.tasks[i]? with
      | some (.creating c) => simp [h]
      | some (.querying c q) => simp [h]
      | none => simp [h]
  | queryErr i t =>
      simp only [stepA, stepEmit]
      match h : s.tasks[i]? with
      | some (.creating c) => simp [h]
      | some (.querying c q) => simp [h]
      | none => simp [h]
  | clear => simp [stepA, stepEmit]

lemma counter_mono (s : AgentState) (e : AgentEvent) :
    s.counter ≤ (stepA s e).counter := by
  rw [counter_step]
  omega

lemma stepEmit_window (s : AgentState) (e : AgentEvent) :
    ∀ id ∈ stepEmit s e,
      ∃ c t, id = mkId c t ∧ s.counter < c ∧ c ≤ (stepA s e).counter := by
  intro id hid
  have hc := counter_step s e
  cases e with
  | send content t =>
      simp only [stepEmit, List.mem_singleton] at hid
      exact ⟨s.counter + 1, t, hid, by omega, by rw [hc]; simp [stepEmit]⟩
  | createOk i cid => simp [stepEmit] at hid
  | createErr i t =>
      simp only [stepEmit] at hid hc
      match h : s.tasks[i]? with
      | some (.creating c) =>
          rw [h] at hid hc
          simp only [List.mem_singleton] at hid
          exact ⟨s.counter + 1, t, hid, by omega, by simp [hc]⟩
      | some (.querying c q) => rw [h] at hid; simp at hid
      | none => rw [h] at hid; simp at hid
  | queryOk i r tc t =>
      simp only [stepEmit] at hid hc
      match h : s.tasks[i]? with
      | some (.creating c) => rw [h] at hid; simp at hid
      | some (.querying c q) =>
          rw [h] at hid hc
          simp only [List.mem_singleton] at hid
          exact ⟨s.counter + 1, t, hid, by omega, by simp [hc]⟩
      | none => rw [h] at hid; simp at hid
  | queryErr i t =>
      simp only [stepEmit] at hid hc
      match h : s.tasks[i]? with
      | some (.creating c) => rw [h] at hid; simp at hid
      | some (.querying c q) =>
          rw [h] at hid hc
          simp only [List.mem_singleton] at hid
          exact ⟨s.counter + 1, t, hid, by omega, by simp [hc]⟩
      | none => rw [h] at hid; simp at hid
  | clear => simp [stepEmit] at hid

lemma runEmit_window (es : List AgentEvent) :
    ∀ (s : AgentState), ∀ id ∈ runEmit s es, ∃ c t, id = mkId c t ∧ s.counter < c := by
  induction es with
  | nil => intro s id hid; simp [runEmit] at hid
  | cons e es ih =>
      intro s id hid
      simp only [runEmit, List.mem_append] at hid
      rcases hid with hid | hid
      · obtain ⟨c, t, h1, h2, _⟩ := stepEmit_window s e id hid
        exact ⟨c, t, h1, h2⟩
      · obtain ⟨c, t, h1, h2⟩ := ih (stepA s e) id hid
        exact ⟨c, t, h1, lt_of_le_of_lt (counter_mono s e) h2⟩

lemma stepEmit_pairwise (s : AgentState) (e : AgentEvent) :
    (stepEmit s e).Pairwise (· ≠ ·) := by
  cases e with
  | send content t => simp [stepEmit]
  | createOk i cid => simp [stepEmit]
  | createErr i t =>
      simp only [stepEmit]
      match h : s.tasks[i]? with
      | some (.creating c) => simp
      | some (.querying c q) => simp
      | none => simp
  | queryOk i r tc t =>
      simp only [stepEmit]
      match h : s.tasks[i]? with
      | some (.creating c) => simp
      | some (.querying c q) => simp
      | none => simp
  | queryErr i t =>
      simp only [stepEmit]
      match h : s.tasks[i]? with
      | some (.creating c) => simp
      | some (.querying c q) => simp
      | none => simp
  | clear => simp [stepEmit]

lemma runEmit_pairwise (es : List AgentEvent) :
    ∀ s : AgentState, (runEmit s es).Pairwise (· ≠ ·) := by
  induction es with
  | nil => intro s; simp [runEmit]
  | cons e es ih =>
      intro s
      simp only [runEmit]
      rw [List.pairwise_append]
      refine ⟨stepEmit_pairwise s e, ih (stepA s e), ?_⟩
      intro a ha b hb
      obtain ⟨c1, t1, ha1, _, ha3⟩ := stepEmit_window s e a ha
      obtain ⟨c2, t2, hb1, hb2⟩ := runEmit_window es (stepA s e) b hb
      intro hab
      rw [ha1, hb1] at hab
      have := (mkId_inj hab).1
      omega

/-! ## Claim theorems -/

/-- Sanity check of the embedding on the specification's scenario: one
retrieved passage with similarity `0.91` renders as a `91% match` block. -/
lemma ragAnswer_scenario :
    ragAnswer sampleChunks =
      "Based on the company policies, here\x27s what I found:\n\n**Source 1** (91% match):\nEmployees get 20 days annual leave." := by
  have h : jsToFixed0 ((91 : Rat) / 100 * 100) = 91 := by
    rw [← roundHalfUp_eq_jsToFixed0, roundHalfUp]
    norm_num
  simp only [ragAnswer, sampleChunks, List.length_singleton]
  rw [if_neg (by omega)]
  simp only [List.take, List.enum, List.enumFrom, List.map, h]
  rfl

/-- Sanity check: the embedded number rendering and id template evaluate as
the JavaScript source does. -/
lemma mkId_eval : natRepr 91 = "91" ∧ mkId 3 17 = "msg-3-17" := by
  constructor <;> decide

/-- C1: for a retrieval call resolving with `n ≥ 1` results, `sendMessage`
appends exactly one assistant message whose content is the constant preamble
followed by one block per result for exactly the first `min(n,3)` results in
the retriever's order — each block carrying the 1-based source index, the
similarity as a whole-number percentage obtained by rounding half up from
`similarity * 100`, and the verbatim passage text — and whose `sources` field
is the full result list, unmodified and in order. -/
theorem c1_retrieval_synthesis (s : RagState) (chunks : List RagChunk) (t : Nat)
    (h : chunks ≠ []) :
    (ragComplete (.ok chunks) t s).messages =
      s.messages ++
        [⟨mkId (s.counter + 1) t, .assistant,
          ragPreamble ++
            String.intercalate "\n\n"
              ((chunks.take (min chunks.length 3)).enum.map (fun p =>
                "**Source " ++ natRepr (p.1 + 1) ++ "** (" ++
                  intRepr (roundHalfUp (p.2.similarity * 100)) ++ "% match):\n" ++
                  p.2.chunk_text)),
          some chunks, t⟩] := by
  have hlen : ¬chunks.length = 0 := by simpa [List.length_eq_zero] using h
  have htake : chunks.take (min chunks.length 3) = chunks.take 3 := by
    rw [List.take_eq_take]
    omega
  simp only [ragComplete, ragAnswer, if_neg hlen, htake, roundHalfUp_eq_jsToFixed0]

/-- Witness for C1, at the specification's scenario input: one result with
similarity `0.91`. -/
theorem c1_retrieval_synthesis_witness :
    sampleChunks ≠ [] ∧
      (ragComplete (.ok sampleChunks) 5 initRag).messages =
        initRag.messages ++
          [⟨mkId 1 5, .assistant,
            ragPreamble ++
              String.intercalate "\n\n"
                ((sampleChunks.take (min sampleChunks.length 3)).enum.map (fun p =>
                  "**Source " ++ natRepr (p.1 + 1) ++ "** (" ++
                    intRepr (roundHalfUp (p.2.similarity * 100)) ++ "% match):\n" ++
                    p.2.chunk_text)),
            some sampleChunks, 5⟩] :=
  ⟨by decide, c1_retrieval_synthesis initRag sampleChunks 5 (by decide)⟩

/-- C5: a retrieval call resolving with an empty result list appends one
assistant message whose content is the fixed no-relevant-information answer
and whose `sources` field is the empty list. -/
theorem c5_empty_retrieval (s : RagState) (t : Nat) :
    (ragComplete (.ok []) t s).messages =
      s.messages ++
        [⟨mkId (s.counter + 1) t, .assistant, noInfoContent, some [], t⟩] := by
  simp [ragComplete, ragAnswer]

/-- C2: whenever the backend call fails, exactly one assistant message is
appended with exactly the fixed fallback content, the earlier log (including
the user message appended at call start) is kept unchanged ahead of it, and
`isLoading` is false — identically for the retrieval hook's query failure, the
agent hook's session-creation failure, and the agent hook's query failure. -/
theorem c2_error_fallback :
    (∀ (s : RagState) (t : Nat),
        ragComplete (.error ()) t s =
          { s with
            messages := s.messages ++
              [⟨mkId (s.counter + 1) t, .assistant, fallbackContent, none, t⟩]
            isLoading := false
            counter := s.counter + 1 }) ∧
    (∀ (s : AgentState) (i : Nat) (q : String) (t : Nat),
        s.tasks[i]? = some (.creating q) →
          stepA s (.createErr i t) =
            { s with
              messages := s.messages ++
                [⟨mkId (s.counter + 1) t, .assistant, fallbackContent, none, t⟩]
              isLoading := false
              counter := s.counter + 1
              tasks := s.tasks.eraseIdx i }) ∧
    (∀ (s : AgentState) (i : Nat) (cid q : String) (t : Nat),
        s.tasks[i]? = some (.querying cid q) →
          stepA s (.queryErr i t) =
            { s with
              messages := s.messages ++
                [⟨mkId (s.counter + 1) t, .assistant, fallbackContent, none, t⟩]
              isLoading := false
              counter := s.counter + 1
              tasks := s.tasks.eraseIdx i }) := by
  refine ⟨fun s t => rfl, fun s i q t h => ?_, fun s i cid q t h => ?_⟩
  · simp [stepA, h]
  · simp [stepA, h]

/-- Witness for C2: a concrete creation-stage failure and a concrete
query-stage failure of the agent hook. -/
theorem c2_error_fallback_witness :
    (sampleCreating.tasks[0]? = some (.creating "What is the leave policy?") ∧
      stepA sampleCreating (.createErr 0 5) =
        { sampleCreating with
          messages := sampleCreating.messages ++
            [⟨mkId (sampleCreating.counter + 1) 5, .assistant, fallbackContent, none, 5⟩]
          isLoading := false
          counter := sampleCreating.counter + 1
          tasks := sampleCreating.tasks.eraseIdx 0 }) ∧
    (sampleQuerying.tasks[0]? =
        some (.querying "conv-1" "What is the leave policy?") ∧
      stepA sampleQuerying (.queryErr 0 6) =
        { sampleQuerying with
          messages := sampleQuerying.messages ++
            [⟨mkId (sampleQuerying.counter + 1) 6, .assistant, fallbackContent, none, 6⟩]
          isLoading := false
          counter := sampleQuerying.counter + 1
          tasks := sampleQuerying.tasks.eraseIdx 0 }) :=
  ⟨⟨rfl, c2_error_fallback.2.1 sampleCreating 0 "What is the leave policy?" 5 rfl⟩,
   ⟨rfl, c2_error_fallback.2.2 sampleQuerying 0 "conv-1" "What is the leave policy?" 6 rfl⟩⟩

/-- C3, counterexample: `sendMessage` itself is not a no-op on a question that
is empty after trimming — called with the empty string it still appends a user
message (changing the message log) and still issues the backend call. -/
theorem c3_counterexample :
    jsTrim "" = "" ∧
      (ragStart "" 0 initRag).messages ≠ initRag.messages ∧
      (ragStart "" 0 initRag).ragCalls = initRag.ragCalls + 1 := by
  refine ⟨rfl, ?_, rfl⟩
  decide

/-- C3, amended: the empty-after-trim / in-flight guard lives in the UI's
`handleSubmit`, not in `sendMessage`.  `handleSubmit` passes nothing to
`onSend` and leaves the draft unchanged when the trimmed value is empty or the
control is disabled (as it is while a call is in flight), and otherwise sends
the trimmed value; `sendMessage` itself performs no guard — on every call,
also with an empty-trimmed question or while loading, it appends a user
message and issues a backend call. -/
theorem c3_guard_in_handle_submit :
    (∀ (v : String) (d : Bool), jsTrim v = "" ∨ d = true →
        handleSubmit v d = (none, v)) ∧
    (∀ (v : String) (d : Bool), ¬(jsTrim v = "" ∨ d = true) →
        handleSubmit v d = (some (jsTrim v), "")) ∧
    (∀ (q : String) (t : Nat) (s : RagState),
        (ragStart q t s).messages =
            s.messages ++ [⟨mkId (s.counter + 1) t, .user, q, none, t⟩] ∧
          (ragStart q t s).ragCalls = s.ragCalls + 1) := by
  refine ⟨fun v d h => ?_, fun v d h => ?_, fun q t s => ⟨rfl, rfl⟩⟩
  · simp [handleSubmit, h]
  · simp only [handleSubmit, if_neg h]

/-- Witness for the amended C3: a whitespace-only draft is dropped by
`handleSubmit`. -/
theorem c3_guard_in_handle_submit_witness :
    (jsTrim "  " = "" ∨ false = true) ∧
      handleSubmit "  " false = (none, "  ") :=
  ⟨Or.inl (by decide), c3_guard_in_handle_submit.1 "  " false (Or.inl (by decide))⟩

/-- C4, counterexample: the agent hook memoizes only the resolved conversation
id, not the in-flight request, so a second `sendMessage` that starts while the
first call's session creation is unresolved issues a second creation call:
after two overlapping sends, two creation requests have been issued, and if
the backend answers them with two session ids both sessions get created, the
cached id ending up as the later one. -/
theorem c4_counterexample :
    (runA initA [.send "a" 0, .send "b" 1]).createCalls = 2 ∧
      (runA initA
          [.send "a" 0, .send "b" 1, .createOk 0 "s1", .createOk 1 "s2"]).conversationId =
        some "s2" := by
  constructor <;> decide

/-- C4, amended: a `sendMessage` that starts after a creation has resolved
reuses the cached id and issues no creation call, but every `sendMessage`
whose `ensureConversation` runs while the ref is still empty — in particular a
second call overlapping the first creation — issues its own session-creation
call; at most one session is created only when calls are sequential. -/
theorem c4_session_memoization :
    (∀ (s : AgentState) (q : String) (t : Nat) (cid : String),
        s.conversationId = some cid →
          (stepA s (.send q t)).createCalls = s.createCalls ∧
            (stepA s (.send q t)).tasks = s.tasks ++ [.querying cid q]) ∧
    (∀ (s : AgentState) (q : String) (t : Nat),
        s.conversationId = none →
          (stepA s (.send q t)).createCalls = s.createCalls + 1 ∧
            (stepA s (.send q t)).tasks = s.tasks ++ [.creating q]) := by
  refine ⟨fun s q t cid h => ?_, fun s q t h => ?_⟩
  · simp [stepA, h]
  · simp [stepA, h]

/-- Witness for the amended C4: a resolved state reuses its id; the initial
state (and any state overlapping an unresolved creation) issues a creation. -/
theorem c4_session_memoization_witness :
    (sampleResolved.conversationId = some "conv-1" ∧
      (stepA sampleResolved (.send "q" 7)).createCalls = sampleResolved.createCalls ∧
        (stepA sampleResolved (.send "q" 7)).tasks =
          sampleResolved.tasks ++ [.querying "conv-1" "q"]) ∧
    (sampleCreating.conversationId = none ∧
      (stepA sampleCreating (.send "q" 8)).createCalls = sampleCreating.createCalls + 1 ∧
        (stepA sampleCreating (.send "q" 8)).tasks =
          sampleCreating.tasks ++ [.creating "q"]) :=
  ⟨⟨rfl, c4_session_memoization.1 sampleResolved "q" 7 "conv-1" rfl⟩,
   ⟨rfl, c4_session_memoization.2 sampleCreating "q" 8 rfl⟩⟩

/-- C6: a successful agent-mode call appends exactly one assistant message,
whose `toolCalls` field is exactly the tool-call list returned by the backend,
order preserved and entries unmodified. -/
theorem c6_toolcalls_verbatim (s : AgentState) (i : Nat) (cid q resp : String)
    (l : List ToolCallInfo) (t : Nat)
    (h : s.tasks[i]? = some (.querying cid q)) :
    stepA s (.queryOk i resp (some l) t) =
      { s with
        messages := s.messages ++
          [⟨mkId (s.counter + 1) t, .assistant, resp, some l, t⟩]
        isLoading := false
        counter := s.counter + 1
        tasks := s.tasks.eraseIdx i } := by
  simp [stepA, h]

/-- Witness for C6, with a concrete tool-call list. -/
theorem c6_toolcalls_verbatim_witness :
    sampleQuerying.tasks[0]? =
        some (.querying "conv-1" "What is the leave policy?") ∧
      stepA sampleQuerying (.queryOk 0 "You have 12 days left." (some sampleToolCalls) 9) =
        { sampleQuerying with
          messages := sampleQuerying.messages ++
            [⟨mkId (sampleQuerying.counter + 1) 9, .assistant, "You have 12 days left.",
              some sampleToolCalls, 9⟩]
          isLoading := false
          counter := sampleQuerying.counter + 1
          tasks := sampleQuerying.tasks.eraseIdx 0 } :=
  ⟨rfl,
   c6_toolcalls_verbatim sampleQuerying 0 "conv-1" "What is the leave policy?"
     "You have 12 days left." sampleToolCalls 9 rfl⟩

/-- C7: every `sendMessage` call with a non-empty trimmed question appends
exactly one user message carrying the question, synchronously within the
call's first segment (so before any network resolution event can run), in
both hooks; and no later step of either hook ever removes messages — every
step other than the explicit `clearMessages` reset only appends. -/
theorem c7_user_message_appended (q : String) (_hq : jsTrim q ≠ "") :
    (∀ (s : RagState) (t : Nat),
        (ragStart q t s).messages =
          s.messages ++ [⟨mkId (s.counter + 1) t, .user, q, none, t⟩]) ∧
    (∀ (s : AgentState) (t : Nat),
        (stepA s (.send q t)).messages =
          s.messages ++ [⟨mkId (s.counter + 1) t, .user, q, none, t⟩]) ∧
    (∀ (s : AgentState) (e : AgentEvent), e ≠ .clear →
        ∃ tail, (stepA s e).messages = s.messages ++ tail) ∧
    (∀ (s : RagState) (r : Except Unit (List RagChunk)) (t : Nat),
        ∃ tail, (ragComplete r t s).messages = s.messages ++ tail) := by
  refine ⟨fun s t => rfl, fun s t => ?_, fun s e he => ?_, fun s r t => ?_⟩
  · cases h : s.conversationId <;> simp [stepA, h]
  · cases e with
    | send c t =>
        refine ⟨[⟨mkId (s.counter + 1) t, .user, c, none, t⟩], ?_⟩
        cases h : s.conversationId <;> simp [stepA, h]
    | createOk i cid =>
        refine ⟨[], ?_⟩
        simp only [stepA, List.append_nil]
        match h : s.tasks[i]? with
        | some (.creating c) => simp
        | some (.querying c q) => simp
        | none => simp
    | createErr i t =>
        simp only [stepA]
        match h : s.tasks[i]? with
        | some (.creating c) => exact ⟨_, rfl⟩
        | some (.querying c q) => exact ⟨[], by simp⟩
        | none => exact ⟨[], by simp⟩
    | queryOk i resp tc t =>
        simp only [stepA]
        match h : s.tasks[i]? with
        | some (.creating c) => exact ⟨[], by simp⟩
        | some (.querying c q) => exact ⟨_, rfl⟩
        | none => exact ⟨[], by simp⟩
    | queryErr i t =>
        simp only [stepA]
        match h : s.tasks[i]? with
        | some (.creating c) => exact ⟨[], by simp⟩
        | some (.querying c q) => exact ⟨_, rfl⟩
        | none => exact ⟨[], by simp⟩
    | clear => exact absurd rfl he
  · cases r with
    | ok chunks => exact ⟨_, rfl⟩
    | error e => exact ⟨_, rfl⟩

/-- Witness for C7, at the question of the specification's scenario. -/
theorem c7_user_message_appended_witness :
    jsTrim "What is the leave policy?" ≠ "" ∧
      (ragStart "What is the leave policy?" 3 initRag).messages =
        initRag.messages ++
          [⟨mkId 1 3, .user, "What is the leave policy?", none, 3⟩] :=
  ⟨by decide,
   (c7_user_message_appended "What is the leave policy?" (by decide)).1 initRag 3⟩

/-- C8: two consecutive `sendMessage` calls — the first awaited to completion,
its session creation succeeding — issue exactly one session-creation call in
total; more generally a `sendMessage` on a state with a cached session id
never issues a creation call. -/
theorem c8_session_reuse (q1 q2 cid resp : String) (tc : Option (List ToolCallInfo))
    (t1 t2 t3 : Nat) :
    (runA initA
        [.send q1 t1, .createOk 0 cid, .queryOk 0 resp tc t2, .send q2 t3]).createCalls = 1 ∧
    (∀ (s : AgentState) (q : String) (t : Nat) (c : String),
        s.conversationId = some c →
          (stepA s (.send q t)).createCalls = s.createCalls) := by
  constructor
  · simp [runA, stepA, initA]
  · intro s q t c h
    simp [stepA, h]

/-- Witness for C8: a concrete sequential two-send run, and the cached-id
no-creation fact at a concrete resolved state. -/
theorem c8_session_reuse_witness :
    ((runA initA
        [.send "a" 1, .createOk 0 "conv-1", .queryOk 0 "r" none 2,
          .send "b" 3]).createCalls = 1) ∧
      sampleResolved.conversationId = some "conv-1" ∧
      (stepA sampleResolved (.send "b" 3)).createCalls = sampleResolved.createCalls :=
  ⟨(c8_session_reuse "a" "b" "conv-1" "r" none 1 2 3).1, rfl,
   (c8_session_reuse "a" "b" "conv-1" "r" none 1 2 3).2 sampleResolved "b" 3 "conv-1" rfl⟩

/-- C9: `clearMessages` is idempotent — a second call yields the very state of
the first, with empty message log and discarded session id — it is a local
synchronous reset (the request counters are untouched, so no backend call is
made), and the next `sendMessage` after it issues a fresh session-creation
call; the retrieval hook's `clearMessages` is idempotent likewise. -/
theorem c9_clear_idempotent (s : AgentState) (r : RagState) (q : String) (t : Nat) :
    stepA (stepA s .clear) .clear = stepA s .clear ∧
    (stepA s .clear).messages = [] ∧
    (stepA s .clear).conversationId = none ∧
    (stepA s .clear).createCalls = s.createCalls ∧
    (stepA s .clear).queryCalls = s.queryCalls ∧
    (stepA (stepA s .clear) (.send q t)).createCalls = s.createCalls + 1 ∧
    ragClear (ragClear r) = ragClear r ∧
    (ragClear r).messages = [] := by
  refine ⟨rfl, rfl, rfl, rfl, rfl, ?_, rfl, rfl⟩
  simp [stepA]

/-- C10: message ids are never reused for the lifetime of the process.  The
id-generator counter grows by exactly one at each `nextId()` call (one per
emitted id), never decreases at any step, and is not touched by
`clearMessages`; consequently the ids generated along any run of the hook —
each message ever appended carries exactly one of them — are pairwise
distinct. -/
theorem c10_ids_never_reused :
    (∀ (s : AgentState) (e : AgentEvent),
        (stepA s e).counter = s.counter + (stepEmit s e).length) ∧
    (∀ (s : AgentState) (e : AgentEvent), s.counter ≤ (stepA s e).counter) ∧
    (∀ s : AgentState, (stepA s .clear).counter = s.counter ∧
        (stepA s .clear).messages = []) ∧
    (∀ (s : AgentState) (es : List AgentEvent), (runEmit s es).Pairwise (· ≠ ·)) :=
  ⟨counter_step, counter_mono, fun _ => ⟨rfl, rfl⟩, fun s es => runEmit_pairwise es s⟩

end HrAgent
